import Mathlib

/-!
Verification development for the dwgtopdf repository (Go).

The Go sources are shallowly embedded as pure Lean functions:
* machine integers (`int64`, durations, `UnixNano` timestamps) become `Int`;
* redis / the filesystem / the MinIO bucket become explicit state values
  threaded through the functions;
* fallible Go functions returning `(..., error)` become `Except String ...`;
* external collaborators (the SHA-256 primitive from `crypto/sha256`,
  the converter RPC, the NATS stream) are uninterpreted parameters.
Every definition mirrors the corresponding Go function; deviations forced by
the embedding are noted next to the definition.
-/

namespace DwgToPdf

/-- Time instants and durations are `int64` nanoseconds in the Go sources
(`time.Time.UnixNano`, `time.Duration`); we embed both as `Int` nanoseconds. -/
abbrev Nanos := Int

/-- Nanoseconds per second, used by `time.Time.Unix()`. -/
def nsPerSec : Int := 1000000000

/-- `time.Time.Unix()`: seconds since the epoch of an instant carried as
nanoseconds. All concrete instants we evaluate are nonnegative, where Go's
and Lean's integer division agree. -/
def unixSec (t : Nanos) : Int := t / nsPerSec

/-- Finite string-keyed map, used for the redis keyspace, the local
filesystem and the MinIO bucket. -/
def setMap {α : Type} (m : String → Option α) (k : String) (v : Option α) :
    String → Option α :=
  fun x => if x = k then v else m x

/-- One hex digit, lower case (`encoding/hex`). -/
def hexDigit (n : Nat) : Char :=
  if n < 10 then Char.ofNat (48 + n) else Char.ofNat (87 + n)

/-- Two hex digits of one byte (`encoding/hex`). -/
def byteHex (b : UInt8) : List Char :=
  [hexDigit (b.toNat / 16), hexDigit (b.toNat % 16)]

/-- `hex.EncodeToString`: lower-case hex of a byte string. -/
def hexEncode (bs : List UInt8) : String :=
  String.mk (bs.foldr (fun b acc => byteHex b ++ acc) [])

/-!
## Go `path.Clean` (= `filepath.Clean` for slash-separated paths on unix)

Ported from Go's `path/path.go`. The output buffer (`lazybuf`) is the list
`out` whose length is the write index `out.w`; `dd` is the `dotdot` mark.
The recursion is driven by a fuel counter bounding the number of loop
iterations (every iteration of Go's loop consumes at least one input byte,
so `input length + 1` fuel is always enough); this keeps the definitions
structurally recursive and hence evaluable by `decide`/`rfl`.
-/

/-- The inner backtracking loop of the `..` case of `path.Clean`:
`for out.w > dotdot && out.index(out.w) != '/' { out.w-- }`.
`j` is the character at `out.index(out.w)`, i.e. the one dropped by the
previous decrement of `out.w`. -/
def popLoop : Nat → Nat → List Char → Char → List Char
  | 0, _, out, _ => out
  | fuel + 1, dd, out, j =>
    if out.length > dd && j != '/' then
      popLoop fuel dd out.dropLast ((out.getLast?).getD ' ')
    else out

/-- The `..` case of `path.Clean`'s switch: backtrack over the previous
element, or append a literal `..` when not rooted; returns the new buffer
and the new `dotdot` mark. -/
def dotdotOut (rooted : Bool) (out : List Char) (dd : Nat) :
    List Char × Nat :=
  if out.length > dd then
    (popLoop out.length dd out.dropLast ((out.getLast?).getD ' '), dd)
  else if !rooted then
    let o1 := if out.length > 0 then out ++ ['/'] else out
    let o2 := o1 ++ ['.', '.']
    (o2, o2.length)
  else (out, dd)

/-- The main loop of `path.Clean` (`for r < n { switch ... } `), one fuel
unit per iteration. -/
def cleanLoop : Nat → Bool → List Char → List Char → Nat → List Char
  | 0, _, _, out, _ => out
  | fuel + 1, rooted, remaining, out, dd =>
    match remaining with
    | [] => out
    | '/' :: rest => cleanLoop fuel rooted rest out dd
    | ['.'] => out
    | '.' :: '/' :: rest => cleanLoop fuel rooted ('/' :: rest) out dd
    | ['.', '.'] => (dotdotOut rooted out dd).1
    | '.' :: '.' :: '/' :: rest =>
      let od := dotdotOut rooted out dd
      cleanLoop fuel rooted ('/' :: rest) od.1 od.2
    | c :: rest =>
      let out1 :=
        if (rooted && out.length != 1) || (!rooted && out.length != 0) then
          out ++ ['/']
        else out
      let out2 := out1 ++ c :: rest.takeWhile (fun x => x != '/')
      cleanLoop fuel rooted (rest.dropWhile (fun x => x != '/')) out2 dd

/-- Go `path.Clean`. On unix `filepath.Clean` is the same function (the
separator is `'/'` and `FromSlash` is the identity), so both
`localStore.fullFilePath` and `minioStore.objectName` use this. -/
def goClean (s : String) : String :=
  let cs := s.toList
  if cs.isEmpty then "."
  else
    let rooted := cs.headD ' ' == '/'
    let rem := if rooted then cs.tail else cs
    let out0 : List Char := if rooted then ['/'] else []
    let dd0 : Nat := if rooted then 1 else 0
    let res := cleanLoop (cs.length + 1) rooted rem out0 dd0
    if res.isEmpty then "." else String.mk res

/-- Whitespace recognised by Go's `unicode.IsSpace` (the Latin-1 range;
uploaded filenames in all claims are in this range). -/
def goIsSpace (c : Char) : Bool :=
  c == ' ' || c == '\t' || c == '\n' || c == '\x0b' || c == '\x0c' ||
  c == '\r' || c == '\x85' || c == '\xa0'

/-- Go `strings.TrimSpace`. -/
def goTrimSpace (s : String) : String :=
  String.mk (((s.toList.dropWhile goIsSpace).reverse.dropWhile goIsSpace).reverse)

/-- Go `strings.HasPrefix`, as a structurally recursive list check. -/
def goHasPre (s pre : String) : Bool :=
  pre.toList.isPrefixOf s.toList

/-- Go `path/filepath.Join` of two elements on unix: join the non-empty
elements with `'/'` and `Clean` the result. -/
def goJoin (a b : String) : String :=
  if a = "" then (if b = "" then "" else goClean b)
  else if b = "" then goClean a
  else goClean (a ++ "/" ++ b)

/-- Go `strings.TrimLeft(s, "/")`. -/
def trimLeftSlash (s : String) : String :=
  String.mk (s.toList.dropWhile (fun c => c == '/'))

/-- `localStore.fullFilePath` (`filestore`, local tier): reject blank
filenames and cleaned names starting with `..`, else join under the base
directory. -/
def fullFilePath (baseDir filename : String) : Except String String :=
  if goTrimSpace filename = "" then .error "empty filename"
  else
    let clean := goClean filename
    if goHasPre clean ".." then .error ("invalid filename: " ++ filename)
    else .ok (goJoin baseDir clean)

/-- `minioStore.objectName`: same validation with `path.Clean`, then the
leading slashes are trimmed and the base path prepended. -/
def objectName (basePath filename : String) : Except String String :=
  if goTrimSpace filename = "" then .error "empty filename"
  else
    let clean := goClean filename
    if goHasPre clean ".." then .error ("invalid filename: " ++ filename)
    else .ok (basePath ++ trimLeftSlash clean)

/-!
## File tiers (`filestore`): `localStore` and `minioStore`

The filesystem and the bucket are maps from full path / object name to file
data. A reader is its byte content plus an optional read error surfaced
while streaming (`io.Copy` / `PutObject` stop on it). The SHA-256 primitive
(`crypto/sha256`, external library code) is an uninterpreted parameter
`sha`; `io.TeeReader` hashes exactly the bytes that were streamed.
-/

/-- A stored file / object: content bytes and modification (resp. upload)
time in nanoseconds. -/
structure FileData where
  content : List UInt8
  mtime : Nanos
deriving DecidableEq, Repr

/-- The local filesystem tier: full path to file. Directories are implicit
(`MkdirAll` has no observable effect in this map). -/
abbrev LocalFS := String → Option FileData

/-- The MinIO bucket: object name to object. -/
abbrev Bucket := String → Option FileData

/-- A streaming reader: the bytes it yields, and an optional error it
reports after them. -/
abbrev Reader := List UInt8 × Option String

/-- `localStore.Save`: validate the name, stream the reader into a temp
file through a SHA-256 tee, then atomically rename over the final path.
Only the committed end state is modelled (the temp file is renamed away or
removed by the deferred cleanup, so it is never part of the result);
`size` is a parameter of the Go method but is unused by it. On error the
filesystem is returned unchanged. -/
def localSave (sha : List UInt8 → List UInt8) (cancelled : Bool)
    (now : Nanos) (baseDir : String) (fs : LocalFS) (reader : Reader)
    (filename : String) (size : Int) :
    Except String (Int × String) × LocalFS :=
  let _ := size
  if cancelled then (.error "context canceled", fs)
  else
    match fullFilePath baseDir filename with
    | .error e => (.error e, fs)
    | .ok fullPath =>
      match reader with
      | (_, some e) => (.error ("write file: " ++ e), fs)
      | (bytes, none) =>
        (.ok ((bytes.length : Int), hexEncode (sha bytes)),
         setMap fs fullPath (some ⟨bytes, now⟩))

/-- `localStore.Open`: validate the name, stat for the size, open for
read. A missing file is reported with the (facade-matched) text
`file not found`. -/
def localOpen (cancelled : Bool) (baseDir : String) (fs : LocalFS)
    (filename : String) : Except String (List UInt8 × Int) :=
  if cancelled then .error "context canceled"
  else
    match fullFilePath baseDir filename with
    | .error e => .error e
    | .ok fullPath =>
      match fs fullPath with
      | none => .error ("file not found: " ++ fullPath)
      | some fd => .ok (fd.content, (fd.content.length : Int))

/-- Modelled from the spec: `localStore.Delete` is not under `src/` (only
`Save`, `Open` and `fullFilePath` are); §4.1 states "Delete(filename).
Idempotent: absence is not an error" and §8 states that `Delete` rejects
empty names and traversal like `Save`/`Open`, i.e. through
`fullFilePath`. -/
def localDelete (cancelled : Bool) (baseDir : String) (fs : LocalFS)
    (filename : String) : Except String Unit × LocalFS :=
  if cancelled then (.error "context canceled", fs)
  else
    match fullFilePath baseDir filename with
    | .error e => (.error e, fs)
    | .ok fullPath => (.ok (), setMap fs fullPath none)

/-- Modelled from the spec: `localStore.CleanupOlderThan` is not under
`src/`; §4.1 states it "removes regular files whose mtime < now − maxAge;
directory structure is preserved". -/
def localCleanupOlderThan (now : Nanos) (maxAge : Nanos) (fs : LocalFS) :
    LocalFS :=
  fun p =>
    match fs p with
    | none => none
    | some fd => if fd.mtime < now - maxAge then none else some fd

/-- `minio-go`'s `PutObject` (external library): with a nonnegative
declared size it uploads exactly that many bytes and fails if the stream
is shorter; with `-1` it uploads the whole stream in chunks. Returns the
stored bucket and the uploaded size (`info.Size`) together with the bytes
that were actually read from the reader (what the SHA-256 tee saw). -/
def putObject (bkt : Bucket) (objName : String) (bytes : List UInt8)
    (declaredSize : Int) (now : Nanos) :
    Except String (Bucket × Int × List UInt8) :=
  if declaredSize ≥ 0 then
    if declaredSize > (bytes.length : Int) then .error "unexpected EOF"
    else
      let sent := bytes.take declaredSize.toNat
      .ok (setMap bkt objName (some ⟨sent, now⟩), declaredSize, sent)
  else .ok (setMap bkt objName (some ⟨bytes, now⟩), (bytes.length : Int), bytes)

/-- `minioStore.Save`: validate the object name, stream through a SHA-256
tee into `PutObject` (size `≤ 0` becomes `-1`, the chunked mode), return
`info.Size` and the hex digest of the bytes streamed. -/
def minioSave (sha : List UInt8 → List UInt8) (cancelled : Bool)
    (now : Nanos) (basePath : String) (bkt : Bucket) (reader : Reader)
    (filename : String) (size : Int) :
    Except String (Int × String) × Bucket :=
  if cancelled then (.error "context canceled", bkt)
  else
    match objectName basePath filename with
    | .error e => (.error e, bkt)
    | .ok objName =>
      match reader with
      | (_, some e) => (.error ("put object: " ++ e), bkt)
      | (bytes, none) =>
        let putSize := if size ≤ 0 then -1 else size
        match putObject bkt objName bytes putSize now with
        | .error e => (.error ("put object: " ++ e), bkt)
        | .ok (bkt', written, sent) =>
          (.ok (written, hexEncode (sha sent)), bkt')

/-- `minioStore.Open`: validate the object name, get and stat; a missing
key is mapped to the (facade-matched) text `file not found`. -/
def minioOpen (cancelled : Bool) (basePath : String) (bkt : Bucket)
    (filename : String) : Except String (List UInt8 × Int) :=
  if cancelled then .error "context canceled"
  else
    match objectName basePath filename with
    | .error e => .error e
    | .ok objName =>
      match bkt objName with
      | none => .error ("file not found: " ++ objName)
      | some fd => .ok (fd.content, (fd.content.length : Int))

/-- `minioStore.Delete`: validate the object name, remove; a missing key
(`NoSuchKey`) is success. -/
def minioDelete (cancelled : Bool) (basePath : String) (bkt : Bucket)
    (filename : String) : Except String Unit × Bucket :=
  if cancelled then (.error "context canceled", bkt)
  else
    match objectName basePath filename with
    | .error e => (.error e, bkt)
    | .ok objName => (.ok (), setMap bkt objName none)

/-- `minioStore.CleanupOlderThan`: list the objects under `basePath` and
remove those with `last-modified` strictly before `now − maxAge`
(removals are modelled as succeeding; transient list errors are skipped
in the source and have no counterpart in the map model). -/
def minioCleanupOlderThan (now : Nanos) (maxAge : Nanos)
    (basePath : String) (bkt : Bucket) : Bucket :=
  fun p =>
    match bkt p with
    | none => none
    | some fd =>
      if goHasPre p basePath && decide (fd.mtime < now - maxAge) then none
      else some fd

/-- `asyncStore.Delete`: attempt local and remote deletion independently
and return the first error observed. -/
def asyncDelete (cancelled : Bool) (baseDir basePath : String)
    (st : LocalFS × Bucket) (filename : String) :
    Except String Unit × (LocalFS × Bucket) :=
  let (r1, fs') := localDelete cancelled baseDir st.1 filename
  let (r2, bkt') := minioDelete cancelled basePath st.2 filename
  (match r1 with
   | .error e => .error e
   | .ok _ => r2, (fs', bkt'))

/-- `asyncStore.CleanupOlderThan`: sweep both tiers (run in parallel in
the source; the map model composes the two independent sweeps). -/
def asyncCleanupOlderThan (now : Nanos) (maxAge : Nanos)
    (baseDir basePath : String) (st : LocalFS × Bucket) :
    LocalFS × Bucket :=
  let _ := baseDir
  (localCleanupOlderThan now maxAge st.1,
   minioCleanupOlderThan now maxAge basePath st.2)

/-!
## `Replicator` (`ingress/internal/infra/store/file/replicator`)
-/

/-- A replication job: `(filename, size, hash, retries)`. -/
structure ReplicateJob where
  filename : String
  size : Int
  hash : String
  retries : Int
deriving DecidableEq, Repr

/-- `Replicator.replicateOnce`: open the local file, stream it to the
remote tier with the known size (the job size overrides the stat size when
positive), reject zero bytes written, compare hashes when both sides have
one. Returns the updated bucket on success. -/
def replicateOnce (sha : List UInt8 → List UInt8) (cancelled : Bool)
    (now : Nanos) (baseDir basePath : String) (fs : LocalFS) (bkt : Bucket)
    (job : ReplicateJob) : Except String Bucket :=
  match localOpen cancelled baseDir fs job.filename with
  | .error e => .error ("open local file: " ++ e)
  | .ok (content, statSize) =>
    let size := if job.size > 0 then job.size else statSize
    match minioSave sha cancelled now basePath bkt (content, none)
        job.filename size with
    | (.error e, _) => .error ("save to remote: " ++ e)
    | (.ok (written, remoteHash), bkt') =>
      if written ≤ 0 then .error "remote save wrote zero bytes"
      else if job.hash != "" && remoteHash != "" && job.hash != remoteHash then
        .error ("hash mismatch: local=" ++ job.hash ++ " remote=" ++ remoteHash)
      else .ok bkt'

/-- What `Replicator.handleJob` decides for one dequeued job. -/
inductive HandleOutcome where
  | success (bkt : Bucket)
  | dropped (err : String)
  | droppedFull (err : String)
  | requeued (job : ReplicateJob)

/-- `Replicator.handleJob`: on replication error, drop when
`job.Retries >= maxRetries` (checked before any increment), otherwise
increment `Retries` and re-enqueue non-blockingly — dropping when the
queue is full (`queueFull` stands for the state of the bounded channel at
the moment of the non-blocking send). -/
def handleJob (sha : List UInt8 → List UInt8) (cancelled : Bool)
    (now : Nanos) (baseDir basePath : String) (fs : LocalFS) (bkt : Bucket)
    (queueFull : Bool) (maxRetries : Int) (job : ReplicateJob) :
    HandleOutcome :=
  match replicateOnce sha cancelled now baseDir basePath fs bkt job with
  | .ok bkt' => .success bkt'
  | .error e =>
    if job.retries ≥ maxRetries then .dropped e
    else
      let job' := { job with retries := job.retries + 1 }
      if queueFull then .droppedFull e else .requeued job'

/-- The retry trajectory of a single job through the worker loop: apply
`handleJob` and follow re-enqueues, counting attempts; `fuel` bounds the
number of worker iterations followed (each re-enqueue strictly increases
`retries` towards `maxRetries`, so any `fuel > maxRetries − retries`
reaches the final disposition). Returns the attempt count and the final
outcome. -/
def jobRun (sha : List UInt8 → List UInt8) (cancelled : Bool) (now : Nanos)
    (baseDir basePath : String) (fs : LocalFS) (bkt : Bucket)
    (queueFull : Bool) (maxRetries : Int) :
    Nat → ReplicateJob → Option (Nat × HandleOutcome)
  | 0, _ => none
  | fuel + 1, job =>
    match handleJob sha cancelled now baseDir basePath fs bkt queueFull
        maxRetries job with
    | .requeued job' =>
      (jobRun sha cancelled now baseDir basePath fs bkt queueFull maxRetries
        fuel job').map (fun p => (p.1 + 1, p.2))
    | o => some (1, o)

/-!
## Task registry (`taskstore.redisTaskStore`)

The redis keyspace is modelled at record level: `task:<id>` hashes as a
map from id to `Task`, the `task:idemp:<key>` and `task:hash:<hex>` string
keys as two index maps, and the `tasks:by_created` sorted set as a list of
`(member, score)` pairs. Transactional pipelines are modelled as the
combined state update (their failure mode is modelled separately where a
claim is about it, see `updateStatus`/`setResult`).
-/

/-- `domain.TaskStatus`. -/
inductive TaskStatus where
  | pending
  | processing
  | done
  | failed
  | expired
deriving DecidableEq, Repr

/-- `domain.Task`. -/
structure Task where
  id : String
  status : TaskStatus
  originalName : String
  inputFilename : String
  resultFilename : String
  fileSize : Int
  fileHashSHA : String
  idempotencyKey : String
  createdAt : Nanos
  updatedAt : Nanos
  expiresAt : Nanos
  error : String
deriving DecidableEq, Repr

/-- The zero value `domain.Task{}` (Go decodes missing hash fields to zero
values; the zero status is the empty string, which no named status equals —
we map it to `pending` only where a claim never depends on it, and in fact
no claim below reads the status of the zero task). -/
def emptyTask : Task :=
  { id := "", status := .pending, originalName := "", inputFilename := "",
    resultFilename := "", fileSize := 0, fileHashSHA := "",
    idempotencyKey := "", createdAt := 0, updatedAt := 0, expiresAt := 0,
    error := "" }

/-- The registry keyspace. -/
structure Store where
  tasks : String → Option Task
  idempIdx : String → Option String
  hashIdx : String → Option String
  byCreated : List (String × Int)

/-- The empty keyspace. -/
def emptyStore : Store :=
  { tasks := fun _ => none, idempIdx := fun _ => none,
    hashIdx := fun _ => none, byCreated := [] }

/-- Redis `ZADD`: set the member's score (update in place or append). -/
def zadd (l : List (String × Int)) (member : String) (score : Int) :
    List (String × Int) :=
  if l.any (fun e => e.1 == member) then
    l.map (fun e => if e.1 == member then (member, score) else e)
  else l ++ [(member, score)]

/-- Redis `ZREM`. -/
def zrem (l : List (String × Int)) (member : String) :
    List (String × Int) :=
  l.filter (fun e => e.1 != member)

/-- Redis `ZRANGEBYSCORE key -inf max`: the members with score `≤ max`
(returned in ascending score order by redis; none of the registry
operations is sensitive to the order, so index order is kept). -/
def zrangeByScoreLe (l : List (String × Int)) (maxScore : Int) :
    List String :=
  (l.filter (fun e => decide (e.2 ≤ maxScore))).map (fun e => e.1)

/-- `redisTaskStore.Task` given the outcome of `HGetAll`: a read error and
an empty result both yield `(domain.Task{}, false)`; otherwise the decoded
task with its `ID` field set from the queried id. -/
def taskRead (id : String) (res : Except String (Option Task)) :
    Task × Bool :=
  match res with
  | .error _ => (emptyTask, false)
  | .ok none => (emptyTask, false)
  | .ok (some t) => ({ t with id := id }, true)

/-- `redisTaskStore.Task` against a healthy store. -/
def storeTask (st : Store) (id : String) : Task × Bool :=
  taskRead id (.ok (st.tasks id))

/-- `domain.CreateTaskParams`. -/
structure CreateTaskParams where
  originalName : String
  inputFilename : String
  fileSize : Int
  fileHashSHA : String
  idempotencyKey : String
  ttl : Nanos
deriving DecidableEq, Repr

/-- The idempotency-key step of `CreateTask`: look up `task:idemp:<key>`;
a hit pointing at a live task with matching hash and size resolves to that
id; a hit pointing at a missing task deletes the stale index entry and
falls through; a live task with a different payload is an error. Returns
the resolved id (if any) and the possibly-updated store. -/
def idempResolve (p : CreateTaskParams) (st : Store) :
    Except String (Option String × Store) :=
  if p.idempotencyKey = "" then .ok (none, st)
  else
    match st.idempIdx p.idempotencyKey with
    | none => .ok (none, st)
    | some existingID =>
      if existingID = "" then .ok (none, st)
      else
        match st.tasks existingID with
        | none =>
          .ok (none,
            { st with idempIdx := setMap st.idempIdx p.idempotencyKey none })
        | some t =>
          if t.fileHashSHA = p.fileHashSHA ∧ t.fileSize = p.fileSize then
            .ok (some existingID, st)
          else
            .error ("idempotency key " ++ p.idempotencyKey ++
              " reused with different payload")

/-- The content-hash step of `CreateTask`: a non-empty hit of
`task:hash:<hex>` resolves to that id. -/
def hashResolve (p : CreateTaskParams) (st : Store) : Option String :=
  if p.fileHashSHA = "" then none
  else
    match st.hashIdx p.fileHashSHA with
    | none => none
    | some id => if id = "" then none else some id

/-- The mint step of `CreateTask`: build the pending task and write, in one
transactional pipeline, the field map, the creation-time index entry and
both auxiliary indexes when their keys are present. `fresh` stands for
`uuid.NewString()` and `now` for `time.Now()`. -/
def mintTask (fresh : String) (now : Nanos) (p : CreateTaskParams)
    (st : Store) : String × Store :=
  let t : Task :=
    { id := fresh, status := .pending, originalName := p.originalName,
      inputFilename := p.inputFilename, resultFilename := "",
      fileSize := p.fileSize, fileHashSHA := p.fileHashSHA,
      idempotencyKey := p.idempotencyKey, createdAt := now,
      updatedAt := now, expiresAt := now + p.ttl, error := "" }
  (fresh,
   { tasks := setMap st.tasks fresh (some t),
     idempIdx :=
       if p.idempotencyKey ≠ "" then
         setMap st.idempIdx p.idempotencyKey (some fresh)
       else st.idempIdx,
     hashIdx :=
       if p.fileHashSHA ≠ "" then
         setMap st.hashIdx p.fileHashSHA (some fresh)
       else st.hashIdx,
     byCreated := zadd st.byCreated fresh (unixSec now) })

/-- `redisTaskStore.CreateTask`: idempotency-key resolution, then
content-hash resolution, then mint. -/
def createTask (fresh : String) (now : Nanos) (p : CreateTaskParams)
    (st : Store) : Except String (String × Store) :=
  match idempResolve p st with
  | .error e => .error e
  | .ok (some id, st') => .ok (id, st')
  | .ok (none, st1) =>
    match hashResolve p st1 with
    | some id => .ok (id, st1)
    | none => .ok (mintTask fresh now p st1)

/-- The writes of `redisTaskStore.UpdateStatus`'s pipeline: `HSET` of
`status`, `error` and `updated_at` (an `HSET` on a missing task key
creates the hash, as redis does). -/
def applyStatus (st : Store) (now : Nanos) (id : String) (s : TaskStatus)
    (errReason : String) : Store :=
  { st with
    tasks := setMap st.tasks id
      (some
        (match st.tasks id with
         | some t =>
           { t with status := s, error := errReason, updatedAt := now }
         | none =>
           { emptyTask with
               status := s, error := errReason, updatedAt := now })) }

/-- `redisTaskStore.UpdateStatus`: run the pipeline; when its `Exec` fails
(`pipeOk = false`) the failure is only logged — the method has no error
result and the store is left as it was. -/
def updateStatus (pipeOk : Bool) (st : Store) (now : Nanos) (id : String)
    (s : TaskStatus) (errReason : String) : Store :=
  if pipeOk then applyStatus st now id s errReason else st

/-- The writes of `redisTaskStore.SetResult`'s pipeline: set
`result_filename`, clear `error`, set `status = done`, touch
`updated_at`. -/
def applyResult (st : Store) (now : Nanos) (id : String)
    (pdfName : String) : Store :=
  { st with
    tasks := setMap st.tasks id
      (some
        (match st.tasks id with
         | some t =>
           { t with
               resultFilename := pdfName, error := "", status := .done,
               updatedAt := now }
         | none =>
           { emptyTask with
               resultFilename := pdfName, error := "", status := .done,
               updatedAt := now })) }

/-- `redisTaskStore.SetResult`: run the pipeline; a failed `Exec` is only
logged (`pipeOk = false`), the method has no error result. -/
def setResult (pipeOk : Bool) (st : Store) (now : Nanos) (id : String)
    (pdfName : String) : Store :=
  if pipeOk then applyResult st now id pdfName else st

/-- One iteration of `redisTaskStore.ExpiredTasks`'s loop: load the task;
if it exists, is strictly past its `expires_at` and is not already
`expired`, mark it `expired` with reason `task expired` (the pipeline is
modelled as succeeding; its failure mode is covered by `updateStatus`).
Returns the new store and the id when it was freshly expired. -/
def expireStep (now : Nanos) (st : Store) (id : String) :
    Store × Option String :=
  let (t, ok) := storeTask st id
  if ok then
    if now > t.expiresAt ∧ t.status ≠ .expired then
      (applyStatus st now id .expired "task expired", some id)
    else (st, none)
  else (st, none)

/-- `redisTaskStore.ExpiredTasks`: range-scan `tasks:by_created` up to
`now` in unix seconds, then process each id with `expireStep`, collecting
the freshly expired ids. -/
def expiredTasks (now : Nanos) (st : Store) : List String × Store :=
  (zrangeByScoreLe st.byCreated (unixSec now)).foldl
    (fun acc id =>
      (acc.1 ++ ((expireStep now acc.2 id).2).toList,
       (expireStep now acc.2 id).1))
    ([], st)

/-- The store component of the `ExpiredTasks` fold, for reasoning. -/
def expireFold (now : Nanos) (ids : List String) (st : Store) : Store :=
  ids.foldl (fun s id => (expireStep now s id).1) st

/-- One iteration of `redisTaskStore.DeleteExpired`'s loop: if the task
exists, delete in one pipeline the record, its time-index entry and, when
their keys are set on the record, both auxiliary index entries. -/
def delExpiredStep (st : Store) (id : String) : Store × Nat :=
  let (t, ok) := storeTask st id
  if ok then
    ({ tasks := setMap st.tasks id none,
       idempIdx :=
         if t.idempotencyKey ≠ "" then setMap st.idempIdx t.idempotencyKey none
         else st.idempIdx,
       hashIdx :=
         if t.fileHashSHA ≠ "" then setMap st.hashIdx t.fileHashSHA none
         else st.hashIdx,
       byCreated := zrem st.byCreated id }, 1)
  else (st, 0)

/-- `redisTaskStore.DeleteExpired`: range-scan `tasks:by_created` up to
`(now − ttl)` in unix seconds and delete each listed record, counting the
successful deletions. -/
def deleteExpired (now : Nanos) (ttl : Nanos) (st : Store) : Nat × Store :=
  (zrangeByScoreLe st.byCreated (unixSec (now - ttl))).foldl
    (fun acc id =>
      (acc.1 + (delExpiredStep acc.2 id).2, (delExpiredStep acc.2 id).1))
    (0, st)

/-!
## Distributor (`distributor/internal/distributor`)
-/

/-- The error classes `process` can return: the context error, the two
domain sentinels, and a converter RPC error. -/
inductive PErr where
  | canceled
  | taskNotFound
  | taskExpired
  | convert (msg : String)
deriving DecidableEq, Repr

/-- A stream acknowledgement action on a fetched message. -/
inductive MsgAction where
  | ack
  | nak
deriving DecidableEq, Repr

/-- The acknowledgement decisions `natsDistributor.runWorker` takes for
one fetched message, as a function of the `process` outcome: success falls
through to the trailing `Ack`; `ErrTaskNotFound`/`ErrTaskExpired` are
`Ack`ed and `continue` past the trailing `Ack`; any other error is `Nak`ed
and then still reaches the trailing `Ack`. -/
def msgActions (r : Except PErr Unit) : List MsgAction :=
  match r with
  | .ok _ => [.ack]
  | .error e =>
    if e = .taskNotFound ∨ e = .taskExpired then [.ack]
    else [.nak, .ack]

/-- `natsDistributor.process` given the result of the task lookup and of
the converter RPC (`conv`, the external gRPC call under the per-job
timeout): check cancellation, resolve the task, refuse expired tasks, mark
`processing`, call the converter, and either mark `failed` or record the
result. -/
def processWith (cancelled : Bool) (lookup : Task × Bool)
    (conv : Except String String) (now : Nanos) (st : Store)
    (taskID : String) : Except PErr Unit × Store :=
  if cancelled then (.error .canceled, st)
  else
    let (task, found) := lookup
    if ¬found then (.error .taskNotFound, st)
    else if task.status = .expired then (.error .taskExpired, st)
    else
      let st1 := applyStatus st now taskID .processing ""
      match conv with
      | .error e => (.error (.convert e), applyStatus st1 now taskID .failed e)
      | .ok pdfName => (.ok (), applyResult st1 now taskID pdfName)

/-- `natsDistributor.process` with the task lookup served by a healthy
store. -/
def process (cancelled : Bool) (conv : Except String String) (now : Nanos)
    (st : Store) (taskID : String) : Except PErr Unit × Store :=
  processWith cancelled (storeTask st taskID) conv now st taskID

/-- The scalar state of `natsDistributor` (the stream, store and converter
handles are external). Field order follows the Go struct. -/
structure NatsDistributor where
  taskCleanupInterval : Nanos
  taskTTL : Nanos
  subject : String
  queueName : String
  size : Int
  conversionTimeout : Nanos
deriving DecidableEq, Repr

/-- `distributor.New`: its first parameter is `taskCleanupInterval`, its
second `taskTTL`. -/
def distributorNew (taskCleanupInterval : Nanos) (taskTTL : Nanos)
    (subject queueName : String) (size : Int)
    (conversionTimeout : Nanos) : NatsDistributor :=
  { taskCleanupInterval := taskCleanupInterval, taskTTL := taskTTL,
    subject := subject, queueName := queueName, size := size,
    conversionTimeout := conversionTimeout }

/-- The distributor service configuration. Modelled from the spec (§6
lists `task_ttl`, `task_cleanup_interval`, `conversion_timeout` plus the
common options); the config source file itself is not under `src/`, but
the fields and their meaning are fixed by the spec and by how
`dependencyInjector` reads them. -/
structure DistConfig where
  taskTTL : Nanos
  taskCleanupInterval : Nanos
  conversionTimeout : Nanos
  poolSize : Int
  subject : String
  queueName : String
deriving DecidableEq, Repr

/-- `dependencyInjector.Distributor` (dapp): the wiring of
`distributor.New` as written in the source — the first argument passed is
`cfg.TaskTTL` and the second `cfg.TaskCleanupInterval`. -/
def diDistributor (cfg : DistConfig) : NatsDistributor :=
  distributorNew cfg.taskTTL cfg.taskCleanupInterval cfg.subject
    cfg.queueName cfg.poolSize cfg.conversionTimeout

/-- The period of the ticker created by `natsDistributor.StartCleanup`
(`time.NewTicker(d.taskCleanupInterval)`). -/
def cleanupTickerPeriod (d : NatsDistributor) : Nanos :=
  d.taskCleanupInterval

/-- The horizon `natsDistributor.StartCleanup` passes to `DeleteExpired`
and to `CleanupOlderThan` on each tick (`2 * d.taskTTL`). -/
def deleteExpiredHorizon (d : NatsDistributor) : Nanos :=
  2 * d.taskTTL

/-- One tick of `natsDistributor.StartCleanup`: collect freshly expired
tasks, delete their input (and, when present, result) files through the
injected `FileCleaner` (the `asyncStore`), purge records older than
`2·taskTTL`, and sweep both file tiers with the same horizon. -/
def cleanupTick (d : NatsDistributor) (now : Nanos)
    (baseDir basePath : String) (st : Store) (fsb : LocalFS × Bucket) :
    Store × (LocalFS × Bucket) :=
  let (expired, st1) := expiredTasks now st
  let fsb1 := expired.foldl
    (fun acc id =>
      let (task, ok) := storeTask st1 id
      if ok then
        let acc1 := (asyncDelete false baseDir basePath acc
          task.inputFilename).2
        if task.resultFilename ≠ "" then
          (asyncDelete false baseDir basePath acc1 task.resultFilename).2
        else acc1
      else acc)
    fsb
  let st2 := (deleteExpired now (deleteExpiredHorizon d) st1).2
  let fsb2 := asyncCleanupOlderThan now (deleteExpiredHorizon d) baseDir
    basePath fsb1
  (st2, fsb2)

/-!
## Invariants and concrete example data

`StoreInv` is the content-hash index consistency that `CreateTask`
maintains and relies on for deduplication: every index entry points at a
live task carrying that hash, and every task with a non-empty hash is
indexed under it. The remaining definitions are the concrete stores,
configurations and jobs the witness and counterexample theorems below
evaluate the embedded operations on.
-/

/-- Consistency of the `task:hash:<hex>` index with the task records;
it holds of the empty keyspace and is preserved by `CreateTask` (with
fresh non-empty uuids). -/
def StoreInv (st : Store) : Prop :=
  (∀ h id, st.hashIdx h = some id →
    id ≠ "" ∧ ∃ t, st.tasks id = some t ∧ t.fileHashSHA = h) ∧
  (∀ id t, st.tasks id = some t → t.fileHashSHA ≠ "" →
    st.hashIdx t.fileHashSHA = some id)

/-- A concrete distributor configuration with
`task_ttl ≠ task_cleanup_interval`. -/
def cfgC4 : DistConfig :=
  { taskTTL := 600 * nsPerSec, taskCleanupInterval := 60 * nsPerSec,
    conversionTimeout := 30 * nsPerSec, poolSize := 4,
    subject := "dwg.convert", queueName := "dwg-conversion" }

/-- A pending task past its expiry, present in the creation-time index. -/
def tPendC1 : Task :=
  { id := "t2", status := .pending, originalName := "o", inputFilename :=
    "in.dwg", resultFilename := "", fileSize := 3, fileHashSHA := "h2",
    idempotencyKey := "", createdAt := 0, updatedAt := 0, expiresAt := 5,
    error := "" }

/-- A one-task store holding `tPendC1`. -/
def stPendC1 : Store :=
  { tasks := setMap (fun _ => none) "t2" (some tPendC1),
    idempIdx := fun _ => none, hashIdx := fun _ => none,
    byCreated := [("t2", 0)] }

/-- A `done` task past its expiry, with a result file, present in the
creation-time index. -/
def tDoneC1 : Task :=
  { id := "t1", status := .done, originalName := "o", inputFilename :=
    "in.dwg", resultFilename := "r.pdf", fileSize := 3, fileHashSHA := "h",
    idempotencyKey := "", createdAt := 0, updatedAt := 0, expiresAt := 5,
    error := "" }

/-- A one-task store holding `tDoneC1`. -/
def stDoneC1 : Store :=
  { tasks := setMap (fun _ => none) "t1" (some tDoneC1),
    idempIdx := fun _ => none, hashIdx := fun _ => none,
    byCreated := [("t1", 0)] }

/-- A local filesystem holding one zero-byte file at `d/a`. -/
def fsC10 : LocalFS := setMap (fun _ => none) "d/a" (some ⟨[], 5⟩)

/-- A replication job for that zero-byte file. -/
def jobC10 : ReplicateJob :=
  { filename := "a", size := 0, hash := "", retries := 0 }

/-- Creation parameters with an idempotency key and a content hash. -/
def pC2a : CreateTaskParams :=
  { originalName := "draw.dwg", inputFilename := "u1.dwg", fileSize := 3,
    fileHashSHA := "h1", idempotencyKey := "k1", ttl := 100 }

/-- The store after minting `pC2a` into the empty keyspace as `u1`. -/
def stC2a : Store :=
  match createTask "u1" 0 pC2a emptyStore with
  | .ok (_, s) => s
  | .error _ => emptyStore

/-- Creation parameters with a content hash and no idempotency key. -/
def pC2b : CreateTaskParams :=
  { originalName := "draw.dwg", inputFilename := "v1.dwg", fileSize := 3,
    fileHashSHA := "h2", idempotencyKey := "", ttl := 100 }

/-- The store after minting `pC2b` into the empty keyspace as `v1`. -/
def stC2b : Store :=
  match createTask "v1" 0 pC2b emptyStore with
  | .ok (_, s) => s
  | .error _ => emptyStore

/-!
## Theorems
-/

/-- Helper: a blank filename or a cleaned name starting with `..` makes
`fullFilePath` fail. -/
theorem fullFilePath_error_of_bad (baseDir filename : String)
    (hbad : goTrimSpace filename = "" ∨
      goHasPre (goClean filename) ".." = true) :
    ∃ e, fullFilePath baseDir filename = .error e := by
  unfold fullFilePath
  rcases hbad with hb | hb
  · rw [if_pos hb]; exact ⟨_, rfl⟩
  · by_cases ht : goTrimSpace filename = ""
    · rw [if_pos ht]; exact ⟨_, rfl⟩
    · rw [if_neg ht, if_pos hb]; exact ⟨_, rfl⟩

/-- Helper: the same two conditions make `objectName` fail. -/
theorem objectName_error_of_bad (basePath filename : String)
    (hbad : goTrimSpace filename = "" ∨
      goHasPre (goClean filename) ".." = true) :
    ∃ e, objectName basePath filename = .error e := by
  unfold objectName
  rcases hbad with hb | hb
  · rw [if_pos hb]; exact ⟨_, rfl⟩
  · by_cases ht : goTrimSpace filename = ""
    · rw [if_pos ht]; exact ⟨_, rfl⟩
    · rw [if_neg ht, if_pos hb]; exact ⟨_, rfl⟩

/-- C6: for every successful `localStore.Save`, the returned hash is the
hex SHA-256 digest of exactly the bytes consumed from the reader, and the
returned written count equals the number of bytes consumed (on success the
whole reader is consumed, so both are stated against its byte content). -/
theorem localSave_hash_and_written (sha : List UInt8 → List UInt8)
    (now : Nanos) (baseDir : String) (fs fs' : LocalFS)
    (bytes : List UInt8) (rerr : Option String) (filename : String)
    (size w : Int) (h : String)
    (hok : localSave sha false now baseDir fs (bytes, rerr) filename size =
      (.ok (w, h), fs')) :
    w = (bytes.length : Int) ∧ h = hexEncode (sha bytes) := by
  cases rerr with
  | some e =>
    simp only [localSave] at hok
    rw [if_neg Bool.false_ne_true] at hok
    cases hfp : fullFilePath baseDir filename <;> rw [hfp] at hok <;>
      simp at hok
  | none =>
    simp only [localSave] at hok
    rw [if_neg Bool.false_ne_true] at hok
    cases hfp : fullFilePath baseDir filename <;> rw [hfp] at hok
    · simp at hok
    · simp only [Prod.mk.injEq, Except.ok.injEq] at hok
      exact ⟨hok.1.1.symm, hok.1.2.symm⟩

/-- Witness for C6 at a concrete save. -/
theorem localSave_hash_and_written_witness :
    (2 : Int) = (([1, 2] : List UInt8).length : Int) ∧
      "0102" = hexEncode ((fun l => l) ([1, 2] : List UInt8)) :=
  localSave_hash_and_written (fun l => l) 9 "data" (fun _ => none)
    ((localSave (fun l => l) false 9 "data" (fun _ => none) ([1, 2], none)
      "a.dwg" 2).2)
    [1, 2] none "a.dwg" 2 2 "0102" rfl

/-- C8: `Task(id)` returns `(domain.Task{}, false)` both on a failed
backing-store read and on a missing record, so the two are
indistinguishable to callers; in the distributor, `process` then returns
`ErrTaskNotFound` and the worker acks the message. -/
theorem task_lookup_conflates_errors (e : String) (id : String)
    (conv : Except String String) (now : Nanos) (st : Store) :
    taskRead id (.error e) = (emptyTask, false) ∧
    taskRead id (.ok none) = (emptyTask, false) ∧
    processWith false (taskRead id (.error e)) conv now st id =
      (.error .taskNotFound, st) ∧
    msgActions (.error .taskNotFound) = [.ack] :=
  ⟨rfl, rfl, rfl, rfl⟩

/-- C9: `UpdateStatus` and `SetResult` have no error result; when the
transactional pipeline fails, the failure is only logged and the store is
left unchanged, while the success path applies the pipelined writes — the
caller observes the same (error-free) return either way. -/
theorem updateStatus_setResult_silent_failure (st : Store) (now : Nanos)
    (id : String) (s : TaskStatus) (errReason pdfName : String) :
    updateStatus false st now id s errReason = st ∧
    setResult false st now id pdfName = st ∧
    updateStatus true st now id s errReason =
      applyStatus st now id s errReason ∧
    setResult true st now id pdfName = applyResult st now id pdfName :=
  ⟨rfl, rfl, rfl, rfl⟩

/-- Counterexample for C3: a `process` failure that is neither
`ErrTaskNotFound` nor `ErrTaskExpired` (here a converter RPC error) is
nak'd and then also reaches the trailing belt-and-braces ack of
`runWorker` — the nak'd message is acked by the same worker. -/
theorem runWorker_nak_then_ack :
    msgActions (.error (.convert "rpc failed")) = [.nak, .ack] ∧
    MsgAction.nak ∈ msgActions (.error (.convert "rpc failed")) ∧
    MsgAction.ack ∈ msgActions (.error (.convert "rpc failed")) := by
  decide

/-- C3 (amended): `runWorker` acks on success, acks once (skipping the
trailing ack) on `ErrTaskNotFound`/`ErrTaskExpired`, and on any other
failure naks and then also acks via the trailing belt-and-braces ack. -/
theorem runWorker_ack_nak_discipline :
    msgActions (.ok ()) = [.ack] ∧
    msgActions (.error .taskNotFound) = [.ack] ∧
    msgActions (.error .taskExpired) = [.ack] ∧
    ∀ e : PErr, e ≠ .taskNotFound → e ≠ .taskExpired →
      msgActions (.error e) = [.nak, .ack] := by
  refine ⟨rfl, rfl, rfl, ?_⟩
  intro e h1 h2
  simp [msgActions, h1, h2]

/-- Witness for C3's amended theorem at a concrete non-sentinel error. -/
theorem runWorker_ack_nak_discipline_witness :
    msgActions (.error (.convert "conversion failed")) = [.nak, .ack] :=
  runWorker_ack_nak_discipline.2.2.2 (.convert "conversion failed")
    (by decide) (by decide)

/-- C4 (code bug): `dependencyInjector.Distributor` passes
`(cfg.TaskTTL, cfg.TaskCleanupInterval)` to `distributor.New`, whose
declared parameter order is `(taskCleanupInterval, taskTTL)`. As wired,
the cleanup ticker period equals the configured `task_ttl` (not
`task_cleanup_interval`) and each tick purges with horizon
`2·task_cleanup_interval` (not `2·task_ttl`). -/
theorem cleanup_wiring_swapped :
    cleanupTickerPeriod (diDistributor cfgC4) = cfgC4.taskTTL ∧
    cleanupTickerPeriod (diDistributor cfgC4) ≠ cfgC4.taskCleanupInterval ∧
    deleteExpiredHorizon (diDistributor cfgC4) =
      2 * cfgC4.taskCleanupInterval ∧
    deleteExpiredHorizon (diDistributor cfgC4) ≠ 2 * cfgC4.taskTTL := by
  decide

/-- C7: a filename whose cleaned canonical form begins with `..`, and an
empty or whitespace-only filename, make every `Save`/`Open`/`Delete` of
both tiers return an error, with the underlying filesystem and bucket
untouched. -/
theorem storeOps_reject_bad_filenames (sha : List UInt8 → List UInt8)
    (cancelled : Bool) (now : Nanos) (baseDir basePath : String)
    (fs : LocalFS) (bkt : Bucket) (reader : Reader) (filename : String)
    (size : Int)
    (hbad : goTrimSpace filename = "" ∨
      goHasPre (goClean filename) ".." = true) :
    ((localSave sha cancelled now baseDir fs reader filename size).1.isOk
        = false ∧
      (localSave sha cancelled now baseDir fs reader filename size).2 = fs) ∧
    (localOpen cancelled baseDir fs filename).isOk = false ∧
    ((localDelete cancelled baseDir fs filename).1.isOk = false ∧
      (localDelete cancelled baseDir fs filename).2 = fs) ∧
    ((minioSave sha cancelled now basePath bkt reader filename size).1.isOk
        = false ∧
      (minioSave sha cancelled now basePath bkt reader filename size).2
        = bkt) ∧
    (minioOpen cancelled basePath bkt filename).isOk = false ∧
    ((minioDelete cancelled basePath bkt filename).1.isOk = false ∧
      (minioDelete cancelled basePath bkt filename).2 = bkt) := by
  obtain ⟨e1, he1⟩ := fullFilePath_error_of_bad baseDir filename hbad
  obtain ⟨e2, he2⟩ := objectName_error_of_bad basePath filename hbad
  cases cancelled with
  | true =>
    exact ⟨⟨rfl, rfl⟩, rfl, ⟨rfl, rfl⟩, ⟨rfl, rfl⟩, rfl, ⟨rfl, rfl⟩⟩
  | false =>
    refine ⟨⟨?_, ?_⟩, ?_, ⟨?_, ?_⟩, ⟨?_, ?_⟩, ?_, ⟨?_, ?_⟩⟩ <;>
      simp [localSave, localOpen, localDelete, minioSave, minioOpen,
        minioDelete, he1, he2, Except.isOk, Except.toBool]

/-- Witness for C7 at a concrete traversal filename. -/
theorem storeOps_reject_bad_filenames_witness :
    ((localSave (fun l => l) false 0 "data" (fun _ => none) ([7], none)
        "../../etc/passwd" 1).1.isOk = false ∧
      (localSave (fun l => l) false 0 "data" (fun _ => none) ([7], none)
        "../../etc/passwd" 1).2 = (fun _ => none)) ∧
    (localOpen false "data" (fun _ => none) "../../etc/passwd").isOk
      = false ∧
    ((localDelete false "data" (fun _ => none) "../../etc/passwd").1.isOk
        = false ∧
      (localDelete false "data" (fun _ => none) "../../etc/passwd").2
        = (fun _ => none)) ∧
    ((minioSave (fun l => l) false 0 "up/" (fun _ => none) ([7], none)
        "../../etc/passwd" 1).1.isOk = false ∧
      (minioSave (fun l => l) false 0 "up/" (fun _ => none) ([7], none)
        "../../etc/passwd" 1).2 = (fun _ => none)) ∧
    (minioOpen false "up/" (fun _ => none) "../../etc/passwd").isOk
      = false ∧
    ((minioDelete false "up/" (fun _ => none) "../../etc/passwd").1.isOk
        = false ∧
      (minioDelete false "up/" (fun _ => none) "../../etc/passwd").2
        = (fun _ => none)) :=
  storeOps_reject_bad_filenames (fun l => l) false 0 "data" "up/"
    (fun _ => none) (fun _ => none) ([7], none) "../../etc/passwd" 1
    (Or.inr (by decide))

/-- Helper: the store component of `ExpiredTasks` is the plain fold of
`expireStep` over the scanned ids. -/
theorem expiredTasks_pair_snd (now : Nanos) (ids : List String)
    (acc : List String) (st : Store) :
    (ids.foldl
      (fun a id =>
        (a.1 ++ ((expireStep now a.2 id).2).toList, (expireStep now a.2 id).1))
      (acc, st)).2 = expireFold now ids st := by
  induction ids generalizing acc st with
  | nil => rfl
  | cons i rest ih =>
    simp only [List.foldl_cons, expireFold] at *
    exact ih _ _

/-- Helper: `(expiredTasks now st).2` as an `expireFold`. -/
theorem expiredTasks_snd (now : Nanos) (st : Store) :
    (expiredTasks now st).2 =
      expireFold now (zrangeByScoreLe st.byCreated (unixSec now)) st :=
  expiredTasks_pair_snd now _ [] st

/-- Helper: an `UpdateStatus` pipeline on one id does not touch another
id's record. -/
theorem applyStatus_tasks_other (st : Store) (now : Nanos) (i : String)
    (s : TaskStatus) (er : String) (id : String) (h : id ≠ i) :
    (applyStatus st now i s er).tasks id = st.tasks id := by
  simp [applyStatus, setMap, h]

/-- Helper: one `expireStep` on another id does not touch this id's
record. -/
theorem expireStep_tasks_other (now : Nanos) (st : Store) (id i : String)
    (h : id ≠ i) : ((expireStep now st i).1).tasks id = st.tasks id := by
  unfold expireStep
  repeat' split
  all_goals first
    | rfl
    | exact applyStatus_tasks_other st now i .expired "task expired" id h

/-- Helper: a task already in status `expired` is left untouched by any
`expireStep`. -/
theorem expireStep_keeps_expired (now : Nanos) (st : Store) (i id : String)
    (t : Task) (ht : st.tasks id = some t) (hs : t.status = .expired) :
    ((expireStep now st i).1).tasks id = some t := by
  by_cases h : id = i
  · subst h
    unfold expireStep storeTask taskRead
    rw [ht]
    simp only [if_true]
    rw [if_neg]
    · exact ht
    · simp [hs]
  · rw [expireStep_tasks_other now st id i h]
    exact ht

/-- Helper: `expireFold` preserves already-expired records unchanged. -/
theorem expireFold_keeps_expired (now : Nanos) (ids : List String)
    (st : Store) (id : String) (t : Task) (ht : st.tasks id = some t)
    (hs : t.status = .expired) :
    (expireFold now ids st).tasks id = some t := by
  induction ids generalizing st with
  | nil => exact ht
  | cons i rest ih =>
    simp only [expireFold, List.foldl_cons] at *
    exact ih _ (expireStep_keeps_expired now st i id t ht hs)

/-- Helper: a step on this very id marks it expired when it is live,
past its expiry and not already expired. -/
theorem expireStep_marks (now : Nanos) (st : Store) (id : String)
    (t : Task) (ht : st.tasks id = some t) (hs : t.status ≠ .expired)
    (hexp : now > t.expiresAt) :
    ∃ t', ((expireStep now st id).1).tasks id = some t' ∧
      t'.status = .expired ∧ t'.error = "task expired" := by
  unfold expireStep storeTask taskRead
  rw [ht]
  simp only [if_true]
  rw [if_pos]
  · simp only [applyStatus, setMap, ht]
    exact ⟨_, rfl, rfl, rfl⟩
  · exact ⟨hexp, hs⟩

/-- Helper: a step on any id preserves "marked expired with reason". -/
theorem expireStep_keeps_marked (now : Nanos) (st : Store) (i id : String)
    (h : ∃ t', st.tasks id = some t' ∧ t'.status = .expired ∧
      t'.error = "task expired") :
    ∃ t', ((expireStep now st i).1).tasks id = some t' ∧
      t'.status = .expired ∧ t'.error = "task expired" := by
  obtain ⟨t', ht, hs, he⟩ := h
  exact ⟨t', expireStep_keeps_expired now st i id t' ht hs, hs, he⟩

/-- Helper: `expireFold` preserves "marked expired with reason". -/
theorem expireFold_keeps_marked (now : Nanos) (ids : List String)
    (st : Store) (id : String)
    (h : ∃ t', st.tasks id = some t' ∧ t'.status = .expired ∧
      t'.error = "task expired") :
    ∃ t', (expireFold now ids st).tasks id = some t' ∧
      t'.status = .expired ∧ t'.error = "task expired" := by
  induction ids generalizing st with
  | nil => exact h
  | cons i rest ih =>
    simp only [expireFold, List.foldl_cons] at *
    exact ih _ (expireStep_keeps_marked now st i id h)

/-- Helper: once the scanned ids contain this id, a live record past its
expiry (or one already freshly marked) ends the fold marked `expired` with
reason `task expired`. -/
theorem expireFold_marks (now : Nanos) (ids : List String) (st : Store)
    (id : String) (hmem : id ∈ ids)
    (h : (∃ t, st.tasks id = some t ∧ t.status ≠ .expired ∧
        now > t.expiresAt) ∨
      (∃ t', st.tasks id = some t' ∧ t'.status = .expired ∧
        t'.error = "task expired")) :
    ∃ t', (expireFold now ids st).tasks id = some t' ∧
      t'.status = .expired ∧ t'.error = "task expired" := by
  induction ids generalizing st with
  | nil => cases hmem
  | cons i rest ih =>
    simp only [expireFold, List.foldl_cons] at *
    by_cases hi : id = i
    · subst hi
      have hmarked : ∃ t', ((expireStep now st id).1).tasks id = some t' ∧
          t'.status = .expired ∧ t'.error = "task expired" := by
        rcases h with ⟨t, ht, hs, hexp⟩ | hR
        · exact expireStep_marks now st id t ht hs hexp
        · exact expireStep_keeps_marked now st id id hR
      exact expireFold_keeps_marked now rest _ id hmarked
    · have hmem' : id ∈ rest := by
        rcases List.mem_cons.mp hmem with h' | h'
        · exact absurd h' hi
        · exact h'
      apply ih _ hmem'
      rcases h with ⟨t, ht, hs, hexp⟩ | hR
      · exact Or.inl ⟨t, (expireStep_tasks_other now st id i hi).symm ▸ ht,
          hs, hexp⟩
      · exact Or.inr (expireStep_keeps_marked now st i id hR)

/-- C1 (amended): with respect to `ExpiredTasks`, only `expired` is
terminal — the cleanup pass leaves a task already in `expired` completely
unchanged, and moves every scanned task strictly past its `expires_at`
whose status is not `expired` (whether `pending`, `processing`, `done` or
`failed`) to `expired` with reason `task expired`. -/
theorem expiredTasks_only_expired_terminal (now : Nanos) (st : Store)
    (id : String) (t : Task) (ht : st.tasks id = some t) :
    (t.status = .expired → ((expiredTasks now st).2).tasks id = some t) ∧
    (t.status ≠ .expired → now > t.expiresAt →
      (∃ s, (id, s) ∈ st.byCreated ∧ s ≤ unixSec now) →
      ∃ t', ((expiredTasks now st).2).tasks id = some t' ∧
        t'.status = .expired ∧ t'.error = "task expired") := by
  rw [expiredTasks_snd]
  constructor
  · intro hs
    exact expireFold_keeps_expired now _ st id t ht hs
  · rintro hs hexp ⟨s, hmem, hsle⟩
    have hidmem : id ∈ zrangeByScoreLe st.byCreated (unixSec now) := by
      unfold zrangeByScoreLe
      exact List.mem_map_of_mem _
        (List.mem_filter.mpr ⟨hmem, decide_eq_true hsle⟩)
    exact expireFold_marks now _ st id hidmem (Or.inl ⟨t, ht, hs, hexp⟩)

/-- Witness for C1's amended theorem: the cleanup pass at `now = 10s`
marks the pending task expired. -/
theorem expiredTasks_only_expired_terminal_witness :
    ∃ t', ((expiredTasks (10 * nsPerSec) stPendC1).2).tasks "t2" = some t' ∧
      t'.status = .expired ∧ t'.error = "task expired" :=
  (expiredTasks_only_expired_terminal (10 * nsPerSec) stPendC1 "t2" tPendC1
    rfl).2 (by decide) (by decide) ⟨0, by decide, by decide⟩

/-- Counterexample for C1: a task in the terminal status `done` (created
at 0, `expires_at = 5ns`, scanned at `now = 10s`) has its status changed
to `expired` by the cleanup pass `ExpiredTasks` — the pass does not
restrict itself to the non-terminal statuses `pending`/`processing`. -/
theorem expiredTasks_expires_done_task :
    (stDoneC1.tasks "t1").map Task.status = some .done ∧
    (((expiredTasks (10 * nsPerSec) stDoneC1).2).tasks "t1").map Task.status
      = some .expired ∧
    (expiredTasks (10 * nsPerSec) stDoneC1).1 = ["t1"] := by
  decide

/-- Helper: a re-enqueue by `handleJob` happens only under the retry
budget, and increments exactly the retry counter. -/
theorem handleJob_requeued_inv (sha : List UInt8 → List UInt8)
    (cancelled : Bool) (now : Nanos) (baseDir basePath : String)
    (fs : LocalFS) (bkt : Bucket) (queueFull : Bool) (maxRetries : Int)
    (job j' : ReplicateJob)
    (h : handleJob sha cancelled now baseDir basePath fs bkt queueFull
      maxRetries job = .requeued j') :
    job.retries < maxRetries ∧ j' = { job with retries := job.retries + 1 } := by
  unfold handleJob at h
  split at h
  · cases h
  · split at h
    · cases h
    · split at h
      · cases h
      · cases h
        exact ⟨lt_of_not_le (by assumption), rfl⟩

/-- Helper: the attempt count of a job's retry trajectory is bounded by
its remaining budget plus the initial attempt. -/
theorem jobRun_attempts_le (sha : List UInt8 → List UInt8)
    (cancelled : Bool) (now : Nanos) (baseDir basePath : String)
    (fs : LocalFS) (bkt : Bucket) (queueFull : Bool) (maxRetries : Int) :
    ∀ (fuel : Nat) (job : ReplicateJob) (n : Nat) (o : HandleOutcome),
      jobRun sha cancelled now baseDir basePath fs bkt queueFull maxRetries
        fuel job = some (n, o) →
      n ≤ (maxRetries - job.retries).toNat + 1 := by
  intro fuel
  induction fuel with
  | zero => intro job n o h; exact absurd h (by simp [jobRun])
  | succ f ih =>
    intro job n o h
    unfold jobRun at h
    split at h
    · rename_i j' hj'
      obtain ⟨hlt, hj⟩ := handleJob_requeued_inv sha cancelled now baseDir
        basePath fs bkt queueFull maxRetries job j' hj'
      obtain ⟨⟨n', o'⟩, h', hno⟩ := Option.map_eq_some'.mp h
      obtain ⟨hn, ho⟩ := Prod.mk.injEq .. ▸ hno
      have hb := ih j' n' o' h'
      subst hj
      simp only at hb
      omega
    · cases h
      omega

/-- Counterexample for C5: with `maxRetries = 1` and a persistently
failing replication (the local file is missing), a job entering with
`retries = 0` is attempted twice, not at most once — `handleJob` compares
`retries` to the budget before incrementing, so it re-enqueues at
`retries = 0` and only drops on the second failure. -/
theorem replicator_attempts_exceed_budget :
    (jobRun (fun l => l) false 0 "d" "" (fun _ => none) (fun _ => none)
      false 1 3 { filename := "a", size := 0, hash := "", retries := 0 }).map
        Prod.fst = some 2 ∧
    ¬ (2 : Nat) ≤ 1 ∧
    handleJob (fun l => l) false 0 "d" "" (fun _ => none) (fun _ => none)
      false 1 { filename := "a", size := 0, hash := "", retries := 0 } =
      .requeued { filename := "a", size := 0, hash := "", retries := 1 } :=
  ⟨rfl, by decide, rfl⟩

/-- C5 (amended): on a failed replication attempt the job is dropped
exactly when its current `retries` (before any increment) already reaches
`maxRetries`; otherwise `retries` is incremented and the job re-enqueued
non-blockingly, dropped when the queue is full. Consequently a job
entering with `retries = 0` under budget `m` is attempted at most `m + 1`
times in total (the initial attempt plus up to `m` retries). -/
theorem replicator_retry_discipline (sha : List UInt8 → List UInt8)
    (cancelled : Bool) (now : Nanos) (baseDir basePath : String)
    (fs : LocalFS) (bkt : Bucket) (queueFull : Bool) (maxRetries : Int) :
    (∀ (job : ReplicateJob) (e : String),
      replicateOnce sha cancelled now baseDir basePath fs bkt job =
        .error e →
      job.retries ≥ maxRetries →
      handleJob sha cancelled now baseDir basePath fs bkt queueFull
        maxRetries job = .dropped e) ∧
    (∀ (job : ReplicateJob) (e : String),
      replicateOnce sha cancelled now baseDir basePath fs bkt job =
        .error e →
      job.retries < maxRetries →
      handleJob sha cancelled now baseDir basePath fs bkt queueFull
        maxRetries job =
        (if queueFull then .droppedFull e
         else .requeued { job with retries := job.retries + 1 })) ∧
    (∀ (fuel : Nat) (job : ReplicateJob) (n : Nat) (o : HandleOutcome),
      job.retries = 0 →
      jobRun sha cancelled now baseDir basePath fs bkt queueFull maxRetries
        fuel job = some (n, o) →
      n ≤ maxRetries.toNat + 1) := by
  refine ⟨?_, ?_, ?_⟩
  · intro job e he hge
    simp only [handleJob, he]
    rw [if_pos hge]
  · intro job e he hlt
    simp only [handleJob, he]
    rw [if_neg (not_le.mpr hlt)]
  · intro fuel job n o h0 h
    have := jobRun_attempts_le sha cancelled now baseDir basePath fs bkt
      queueFull maxRetries fuel job n o h
    rw [h0] at this
    simpa using this

/-- Witness for C5's amended theorem over a concrete failing
replication. -/
theorem replicator_retry_discipline_witness :
    handleJob (fun l => l) false 0 "d" "" (fun _ => none) (fun _ => none)
      false 0 { filename := "a", size := 0, hash := "", retries := 0 } =
      .dropped "open local file: file not found: d/a" ∧
    handleJob (fun l => l) false 0 "d" "" (fun _ => none) (fun _ => none)
      false 1 { filename := "a", size := 0, hash := "", retries := 0 } =
      (if false then .droppedFull "open local file: file not found: d/a"
       else .requeued { filename := "a", size := 0, hash := "", retries := 1 }) ∧
    (2 : Nat) ≤ (1 : Int).toNat + 1 := by
  have h := replicator_retry_discipline (fun l => l) false 0 "d" ""
    (fun _ => none) (fun _ => none) false 1
  refine ⟨?_, ?_, ?_⟩
  · exact replicator_retry_discipline (fun l => l) false 0 "d" ""
      (fun _ => none) (fun _ => none) false 0 |>.1
      { filename := "a", size := 0, hash := "", retries := 0 }
      "open local file: file not found: d/a" rfl (by decide)
  · exact h.2.1 { filename := "a", size := 0, hash := "", retries := 0 }
      "open local file: file not found: d/a" rfl (by decide)
  · exact h.2.2 3 { filename := "a", size := 0, hash := "", retries := 0 }
      2 (.dropped "open local file: file not found: d/a") rfl rfl

/-- Helper: a successful `fullFilePath` means the filename was not blank
and its cleaned form does not start with `..`. -/
theorem fullFilePath_ok_conditions (baseDir f p : String)
    (h : fullFilePath baseDir f = .ok p) :
    goTrimSpace f ≠ "" ∧ goHasPre (goClean f) ".." = false := by
  unfold fullFilePath at h
  by_cases h1 : goTrimSpace f = ""
  · rw [if_pos h1] at h; cases h
  · rw [if_neg h1] at h
    by_cases h2 : goHasPre (goClean f) ".." = true
    · rw [if_pos h2] at h; cases h
    · exact ⟨h1, by simpa using h2⟩

/-- Helper: a successful `localStore.Open` means the filename passed
validation. -/
theorem localOpen_ok_validates (baseDir f : String) (fs : LocalFS)
    (x : List UInt8 × Int) (h : localOpen false baseDir fs f = .ok x) :
    goTrimSpace f ≠ "" ∧ goHasPre (goClean f) ".." = false := by
  unfold localOpen at h
  rw [if_neg Bool.false_ne_true] at h
  cases hfp : fullFilePath baseDir f with
  | error e => rw [hfp] at h; cases h
  | ok p => exact fullFilePath_ok_conditions baseDir f p hfp

/-- Helper: a filename passing the two validation checks resolves in
`objectName`. -/
theorem objectName_ok_of_conditions (basePath f : String)
    (h1 : goTrimSpace f ≠ "") (h2 : goHasPre (goClean f) ".." = false) :
    objectName basePath f = .ok (basePath ++ trimLeftSlash (goClean f)) := by
  unfold objectName
  rw [if_neg h1, if_neg (by simp [h2])]

/-- Helper: when the local file of a job is zero-byte, every
`replicateOnce` attempt returns an error — a positive declared job size
makes the upload fail short, and otherwise the remote save reports zero
bytes written, which `replicateOnce` rejects. -/
theorem replicateOnce_error_of_empty (sha : List UInt8 → List UInt8)
    (cancelled : Bool) (now : Nanos) (baseDir basePath : String)
    (fs : LocalFS) (bkt : Bucket) (job : ReplicateJob)
    (hempty : localOpen false baseDir fs job.filename = .ok ([], 0)) :
    ∃ e, replicateOnce sha cancelled now baseDir basePath fs bkt job =
      .error e := by
  cases cancelled with
  | true =>
    unfold replicateOnce localOpen
    exact ⟨_, rfl⟩
  | false =>
    obtain ⟨hc1, hc2⟩ := localOpen_ok_validates baseDir job.filename fs _ hempty
    have hobj := objectName_ok_of_conditions basePath job.filename hc1 hc2
    unfold replicateOnce
    rw [hempty]
    simp only
    unfold minioSave
    rw [if_neg Bool.false_ne_true, hobj]
    simp only
    by_cases hjs : job.size > 0
    · rw [if_pos hjs]
      rw [if_neg (not_le.mpr hjs)]
      unfold putObject
      rw [if_pos (le_of_lt hjs), if_pos (by simpa using hjs)]
      exact ⟨_, rfl⟩
    · rw [if_neg hjs]
      rw [if_pos le_rfl]
      unfold putObject
      rw [if_neg (by norm_num)]
      simp only [List.length_nil, Nat.cast_zero]
      rw [if_pos le_rfl]
      exact ⟨_, rfl⟩

/-- Helper: a job whose local file is zero-byte ends its retry trajectory
dropped, whatever the budget. -/
theorem jobRun_drops_of_empty (sha : List UInt8 → List UInt8)
    (cancelled : Bool) (now : Nanos) (baseDir basePath : String)
    (fs : LocalFS) (bkt : Bucket) (maxRetries : Int) (fname : String)
    (hempty : localOpen false baseDir fs fname = .ok ([], 0)) :
    ∀ (fuel : Nat) (job : ReplicateJob), job.filename = fname →
      ∀ (n : Nat) (o : HandleOutcome),
        jobRun sha cancelled now baseDir basePath fs bkt false maxRetries
          fuel job = some (n, o) →
        ∃ e, o = .dropped e := by
  intro fuel
  induction fuel with
  | zero => intro job hjf n o h; exact absurd h (by simp [jobRun])
  | succ f ih =>
    intro job hjf n o h
    obtain ⟨e, he⟩ := replicateOnce_error_of_empty sha cancelled now baseDir
      basePath fs bkt job (by rw [hjf]; exact hempty)
    unfold jobRun at h
    by_cases hr : job.retries ≥ maxRetries
    · have hh : handleJob sha cancelled now baseDir basePath fs bkt false
          maxRetries job = .dropped e := by
        simp only [handleJob, he]
        rw [if_pos hr]
      rw [hh] at h
      simp only [Option.some.injEq, Prod.mk.injEq] at h
      exact ⟨e, h.2.symm⟩
    · have hh : handleJob sha cancelled now baseDir basePath fs bkt false
          maxRetries job =
          .requeued { job with retries := job.retries + 1 } := by
        simp only [handleJob, he]
        rw [if_neg hr]
        rfl
      rw [hh] at h
      obtain ⟨⟨n', o'⟩, h', hno⟩ := Option.map_eq_some'.mp h
      have ho : o' = o := (Prod.mk.injEq .. ▸ hno).2
      exact ho ▸ ih { job with retries := job.retries + 1 } (by simpa using hjf)
        n' o' h'

/-- C10: `replicateOnce` treats a remote save reporting zero bytes written
as an error, so a zero-byte local file always fails replication; along the
worker's retry trajectory such a job is retried until its budget is
exhausted and dropped — no attempt ever succeeds, so the file is never
replicated successfully. -/
theorem zero_byte_file_never_replicates (sha : List UInt8 → List UInt8)
    (cancelled : Bool) (now : Nanos) (baseDir basePath : String)
    (fs : LocalFS) (bkt : Bucket) (maxRetries : Int) (job : ReplicateJob)
    (hempty : localOpen false baseDir fs job.filename = .ok ([], 0)) :
    (∃ e, replicateOnce sha cancelled now baseDir basePath fs bkt job =
      .error e) ∧
    (∀ (fuel n : Nat) (o : HandleOutcome),
      jobRun sha cancelled now baseDir basePath fs bkt false maxRetries fuel
        job = some (n, o) →
      (∃ e, o = .dropped e) ∧ ∀ b, o ≠ .success b) := by
  refine ⟨replicateOnce_error_of_empty sha cancelled now baseDir basePath fs
    bkt job hempty, ?_⟩
  intro fuel n o h
  obtain ⟨e, he⟩ := jobRun_drops_of_empty sha cancelled now baseDir basePath
    fs bkt maxRetries job.filename hempty fuel job rfl n o h
  subst he
  exact ⟨⟨e, rfl⟩, fun b hb => by cases hb⟩

/-- Witness for C10 at the concrete zero-byte file with budget 1: the
single attempt errors, and after two attempts the trajectory ends
dropped with the zero-bytes error, never in success. -/
theorem zero_byte_file_never_replicates_witness :
    (∃ e, replicateOnce (fun l => l) false 0 "d" "" fsC10 (fun _ => none)
      jobC10 = .error e) ∧
    ((∃ e, (HandleOutcome.dropped "remote save wrote zero bytes") =
        .dropped e) ∧
      ∀ b, (HandleOutcome.dropped "remote save wrote zero bytes") ≠
        .success b) :=
  ⟨(zero_byte_file_never_replicates (fun l => l) false 0 "d" "" fsC10
      (fun _ => none) 1 jobC10 rfl).1,
   (zero_byte_file_never_replicates (fun l => l) false 0 "d" "" fsC10
      (fun _ => none) 1 jobC10 rfl).2 3 2
      (.dropped "remote save wrote zero bytes") rfl⟩

/-- Helper: characterization of the idempotency step when it resolves to
an existing id — the store is unchanged and the resolved task's payload
matches the request. -/
theorem idempResolve_some (p : CreateTaskParams) (st : Store) (id : String)
    (st' : Store) (h : idempResolve p st = .ok (some id, st')) :
    st' = st ∧ st.idempIdx p.idempotencyKey = some id ∧ id ≠ "" ∧
    ∃ t, st.tasks id = some t ∧ t.fileHashSHA = p.fileHashSHA ∧
      t.fileSize = p.fileSize := by
  unfold idempResolve at h
  split at h
  · simp at h
  · split at h
    · simp at h
    · rename_i eid hi
      split at h
      · simp at h
      · rename_i he
        split at h
        · simp at h
        · rename_i t ht
          split at h
          · rename_i hm
            simp only [Except.ok.injEq, Prod.mk.injEq, Option.some.injEq] at h
            obtain ⟨hid, hst⟩ := h
            subst hid
            exact ⟨hst.symm, hi, he, t, ht, hm.1, hm.2⟩
          · cases h

/-- Helper: characterization of the idempotency step when it falls
through — the task map, hash index and time index are untouched, and with
a non-empty key the key's binding is now absent or blank (the stale-entry
branch deletes it). -/
theorem idempResolve_none (p : CreateTaskParams) (st st' : Store)
    (h : idempResolve p st = .ok (none, st')) :
    st'.tasks = st.tasks ∧ st'.hashIdx = st.hashIdx ∧
    st'.byCreated = st.byCreated ∧
    (p.idempotencyKey ≠ "" →
      st'.idempIdx p.idempotencyKey = none ∨
      st'.idempIdx p.idempotencyKey = some "") := by
  unfold idempResolve at h
  split at h
  · rename_i hk
    simp only [Except.ok.injEq, Prod.mk.injEq] at h
    rw [← h.2]
    exact ⟨rfl, rfl, rfl, fun hne => absurd hk hne⟩
  · split at h
    · rename_i hi
      simp only [Except.ok.injEq, Prod.mk.injEq] at h
      rw [← h.2]
      exact ⟨rfl, rfl, rfl, fun _ => Or.inl hi⟩
    · rename_i eid hi
      split at h
      · rename_i he
        simp only [Except.ok.injEq, Prod.mk.injEq] at h
        rw [← h.2]
        refine ⟨rfl, rfl, rfl, fun _ => Or.inr ?_⟩
        rw [hi, he]
      · split at h
        · simp only [Except.ok.injEq, Prod.mk.injEq] at h
          rw [← h.2]
          exact ⟨rfl, rfl, rfl, fun _ => Or.inl (by simp [setMap])⟩
        · split at h
          · simp at h
          · cases h

/-- Helper: a content-hash hit means the hash is non-empty and indexed to
that (non-empty) id. -/
theorem hashResolve_some_char (p : CreateTaskParams) (st : Store)
    (id : String) (h : hashResolve p st = some id) :
    p.fileHashSHA ≠ "" ∧ st.hashIdx p.fileHashSHA = some id ∧ id ≠ "" := by
  unfold hashResolve at h
  split at h
  · cases h
  · split at h
    · cases h
    · rename_i hid hidx
      split at h
      · cases h
      · rename_i hne
        cases h
        exact ⟨by assumption, hidx, hne⟩

/-- Helper: a content-hash miss with a non-empty hash means the index has
no usable binding for it. -/
theorem hashResolve_none_char (p : CreateTaskParams) (st : Store)
    (hH : p.fileHashSHA ≠ "") (h : hashResolve p st = none) :
    st.hashIdx p.fileHashSHA = none ∨ st.hashIdx p.fileHashSHA = some "" := by
  unfold hashResolve at h
  split at h
  · rename_i hc; exact absurd hc hH
  · split at h
    · rename_i hidx; exact Or.inl hidx
    · rename_i id hidx
      split at h
      · rename_i he; exact Or.inr (by rw [hidx, he])
      · cases h

/-- Helper: forward evaluation of a content-hash hit. -/
theorem hashResolve_hit (p : CreateTaskParams) (st : Store) (id : String)
    (hH : p.fileHashSHA ≠ "") (hi : st.hashIdx p.fileHashSHA = some id)
    (hid : id ≠ "") : hashResolve p st = some id := by
  unfold hashResolve
  rw [if_neg hH, hi]
  show (if id = "" then none else some id) = some id
  rw [if_neg hid]

/-- Helper: forward evaluation of an idempotency match. -/
theorem idempResolve_match (p : CreateTaskParams) (st : Store)
    (id : String) (t : Task) (hk : p.idempotencyKey ≠ "")
    (hi : st.idempIdx p.idempotencyKey = some id) (hid : id ≠ "")
    (ht : st.tasks id = some t) (hth : t.fileHashSHA = p.fileHashSHA)
    (hts : t.fileSize = p.fileSize) :
    idempResolve p st = .ok (some id, st) := by
  simp [idempResolve, hk, hi, hid, ht, hth, hts]

/-- Helper: forward evaluation of an idempotency fall-through on an
absent or blank binding. -/
theorem idempResolve_skip (p : CreateTaskParams) (st : Store)
    (hk : p.idempotencyKey ≠ "")
    (hi : st.idempIdx p.idempotencyKey = none ∨
      st.idempIdx p.idempotencyKey = some "") :
    idempResolve p st = .ok (none, st) := by
  rcases hi with hi | hi <;> simp [idempResolve, hk, hi]

/-- Helper: `CreateTask` resolved by the idempotency step. -/
theorem createTask_eval_resolved (f : String) (n : Nanos)
    (p : CreateTaskParams) (st : Store) (id : String)
    (hi : idempResolve p st = .ok (some id, st)) :
    createTask f n p st = .ok (id, st) := by
  unfold createTask
  rw [hi]

/-- Helper: `CreateTask` resolved by the content-hash step. -/
theorem createTask_eval_hash (f : String) (n : Nanos)
    (p : CreateTaskParams) (st : Store) (id : String)
    (h1 : idempResolve p st = .ok (none, st))
    (h2 : hashResolve p st = some id) :
    createTask f n p st = .ok (id, st) := by
  simp [createTask, h1, h2]

/-- Helper (C2, part one): a successful `CreateTask` with a non-empty
idempotency key is stable under replay — a second call with the same key,
hash and size returns the same id and leaves the store exactly as the
first call left it. -/
theorem createTask_replay (p₁ p₂ : CreateTaskParams) (st st' : Store)
    (f₁ f₂ : String) (n₁ n₂ : Nanos) (id : String)
    (hk : p₁.idempotencyKey ≠ "") (hf : f₁ ≠ "")
    (hk2 : p₂.idempotencyKey = p₁.idempotencyKey)
    (hh : p₂.fileHashSHA = p₁.fileHashSHA)
    (hs : p₂.fileSize = p₁.fileSize)
    (h1 : createTask f₁ n₁ p₁ st = .ok (id, st')) :
    createTask f₂ n₂ p₂ st' = .ok (id, st') := by
  have hk₂ : p₂.idempotencyKey ≠ "" := by rw [hk2]; exact hk
  unfold createTask at h1
  split at h1
  · cases h1
  · rename_i id0 stx heq
    simp only [Except.ok.injEq, Prod.mk.injEq] at h1
    obtain ⟨hid0, hstx⟩ := h1
    rw [hid0, hstx] at heq
    obtain ⟨hst, hi, hidne, t, ht, hth, hts⟩ :=
      idempResolve_some p₁ st id st' heq
    subst hst
    exact createTask_eval_resolved f₂ n₂ p₂ st' id
      (idempResolve_match p₂ st' id t hk₂ (by rw [hk2]; exact hi) hidne ht
        (by rw [hh]; exact hth) (by rw [hs]; exact hts))
  · rename_i st1 heq
    split at h1
    · rename_i hid0 heq2
      simp only [Except.ok.injEq, Prod.mk.injEq] at h1
      obtain ⟨hid0e, hstx⟩ := h1
      rw [hid0e] at heq2
      rw [hstx] at heq heq2
      obtain ⟨-, -, -, hidemp⟩ := idempResolve_none p₁ st st' heq
      obtain ⟨hH₁, hidx, hidne⟩ := hashResolve_some_char p₁ st' id heq2
      refine createTask_eval_hash f₂ n₂ p₂ st' id ?_ ?_
      · exact idempResolve_skip p₂ st' hk₂ (by rw [hk2]; exact hidemp hk)
      · exact hashResolve_hit p₂ st' id (by rw [hh]; exact hH₁)
          (by rw [hh]; exact hidx) hidne
    · rename_i heq2
      simp only [Except.ok.injEq, mintTask, Prod.mk.injEq] at h1
      obtain ⟨hidf, hstw⟩ := h1
      rw [← hidf, ← hstw]
      refine createTask_eval_resolved f₂ n₂ p₂ _ f₁
        (idempResolve_match p₂ _ f₁
          { id := f₁, status := .pending, originalName := p₁.originalName,
            inputFilename := p₁.inputFilename, resultFilename := "",
            fileSize := p₁.fileSize, fileHashSHA := p₁.fileHashSHA,
            idempotencyKey := p₁.idempotencyKey, createdAt := n₁,
            updatedAt := n₁, expiresAt := n₁ + p₁.ttl, error := "" }
          hk₂ ?_ hf ?_ hh.symm hs.symm)
      · simp only [hk2]
        rw [if_pos hk]
        simp [setMap]
      · simp [setMap]

/-- Helper: the mint step preserves `StoreInv` when the fresh uuid is
non-empty and unused and the content hash missed its index. -/
theorem mintTask_preserves_inv (p : CreateTaskParams) (st : Store)
    (fresh : String) (now : Nanos) (hinv : StoreInv st) (hf : fresh ≠ "")
    (hfree : st.tasks fresh = none) (hmiss : hashResolve p st = none) :
    StoreInv (mintTask fresh now p st).2 := by
  obtain ⟨inv1, inv2⟩ := hinv
  constructor
  · intro h id hidx
    simp only [mintTask] at hidx ⊢
    by_cases hH : p.fileHashSHA = ""
    · rw [if_neg (not_not_intro hH)] at hidx
      obtain ⟨hidne, t, ht, hth⟩ := inv1 h id hidx
      have hne : id ≠ fresh := fun he => by rw [he, hfree] at ht; cases ht
      exact ⟨hidne, t, by simp [setMap, hne]; exact ht, hth⟩
    · rw [if_pos hH] at hidx
      by_cases hhh : h = p.fileHashSHA
      · rw [hhh] at hidx
        have hfi : fresh = id := by simpa [setMap] using hidx
        exact ⟨by rw [← hfi]; exact hf, { id := fresh, status := TaskStatus.pending, originalName := p.originalName, inputFilename := p.inputFilename, resultFilename := "", fileSize := p.fileSize, fileHashSHA := p.fileHashSHA, idempotencyKey := p.idempotencyKey, createdAt := now, updatedAt := now, expiresAt := now + p.ttl, error := "" },
          by rw [← hfi]; simp [setMap], hhh.symm⟩
      · simp only [setMap, if_neg hhh] at hidx
        obtain ⟨hidne, t, ht, hth⟩ := inv1 h id hidx
        have hne : id ≠ fresh := fun he => by rw [he, hfree] at ht; cases ht
        exact ⟨hidne, t, by simp [setMap, hne]; exact ht, hth⟩
  · intro id t htask hth
    simp only [mintTask] at htask ⊢
    by_cases hid : id = fresh
    · have hT : { id := fresh, status := TaskStatus.pending, originalName := p.originalName, inputFilename := p.inputFilename, resultFilename := "", fileSize := p.fileSize, fileHashSHA := p.fileHashSHA, idempotencyKey := p.idempotencyKey, createdAt := now, updatedAt := now, expiresAt := now + p.ttl, error := "" } = t := by
        apply Option.some.inj
        rw [← htask]
        simp [setMap, hid]
      have hH' : p.fileHashSHA ≠ "" := by
        rw [← hT] at hth
        exact hth
      rw [if_pos hH', ← hT]
      simp [setMap, hid]
    · have htask' : st.tasks id = some t := by
        have h2 := htask
        simp only [setMap, if_neg hid] at h2
        exact h2
      have hidxo := inv2 id t htask' hth
      by_cases hH : p.fileHashSHA = ""
      · rw [if_neg (not_not_intro hH)]
        exact hidxo
      · rw [if_pos hH]
        by_cases hhh : t.fileHashSHA = p.fileHashSHA
        · exfalso
          obtain ⟨hidne, -⟩ := inv1 t.fileHashSHA id hidxo
          rcases hashResolve_none_char p st hH hmiss with h0 | h0 <;>
            rw [← hhh, hidxo] at h0
          · cases h0
          · exact hidne (Option.some.inj h0)
        · simp only [setMap, if_neg hhh]
          exact hidxo

/-- Helper: every successful `CreateTask` (with a fresh non-empty uuid)
preserves `StoreInv`. -/
theorem createTask_preserves_inv (p : CreateTaskParams) (st st' : Store)
    (fresh : String) (now : Nanos) (id : String)
    (hinv : StoreInv st) (hf : fresh ≠ "") (hfree : st.tasks fresh = none)
    (h : createTask fresh now p st = .ok (id, st')) : StoreInv st' := by
  unfold createTask at h
  split at h
  · cases h
  · rename_i id0 stx heq
    simp only [Except.ok.injEq, Prod.mk.injEq] at h
    obtain ⟨-, hstx⟩ := h
    rw [hstx] at heq
    obtain ⟨hst, -, -, -⟩ := idempResolve_some p st id0 st' heq
    rw [hst]
    exact hinv
  · rename_i st1 heq
    obtain ⟨htk, hhx, -, -⟩ := idempResolve_none p st st1 heq
    have hinv1 : StoreInv st1 := by
      constructor
      · intro a b hab
        rw [hhx] at hab
        obtain ⟨x, t, ht, hh2⟩ := hinv.1 a b hab
        exact ⟨x, t, by rw [htk]; exact ht, hh2⟩
      · intro a t ha hb
        rw [htk] at ha
        rw [hhx]
        exact hinv.2 a t ha hb
    split at h
    · rename_i hid0 heq2
      simp only [Except.ok.injEq, Prod.mk.injEq] at h
      obtain ⟨-, hstx⟩ := h
      rw [← hstx]
      exact hinv1
    · rename_i heq2
      simp only [Except.ok.injEq] at h
      have hstw : (mintTask fresh now p st1).2 = st' := congrArg Prod.snd h
      rw [← hstw]
      exact mintTask_preserves_inv p st1 fresh now hinv1 hf
        (by rw [htk]; exact hfree) heq2

/-- Helper: after a successful `CreateTask` with a non-empty hash, the
hash index binds that hash to the returned (non-empty) id. -/
theorem createTask_hashIdx_after (p : CreateTaskParams) (st st' : Store)
    (fresh : String) (now : Nanos) (id : String)
    (hinv : StoreInv st) (hH : p.fileHashSHA ≠ "") (hf : fresh ≠ "")
    (h : createTask fresh now p st = .ok (id, st')) :
    st'.hashIdx p.fileHashSHA = some id ∧ id ≠ "" := by
  unfold createTask at h
  split at h
  · cases h
  · rename_i id0 stx heq
    simp only [Except.ok.injEq, Prod.mk.injEq] at h
    obtain ⟨hid0, hstx⟩ := h
    rw [hid0, hstx] at heq
    obtain ⟨hst, hi, hidne, t, ht, hth, -⟩ :=
      idempResolve_some p st id st' heq
    subst hst
    refine ⟨?_, hidne⟩
    rw [← hth]
    exact hinv.2 id t ht (by rw [hth]; exact hH)
  · rename_i st1 heq
    split at h
    · rename_i hid0 heq2
      simp only [Except.ok.injEq, Prod.mk.injEq] at h
      obtain ⟨hid0e, hstx⟩ := h
      rw [hid0e] at heq2
      rw [hstx] at heq2
      obtain ⟨-, hidx, hidne⟩ := hashResolve_some_char p st' id heq2
      exact ⟨hidx, hidne⟩
    · rename_i heq2
      simp only [Except.ok.injEq, mintTask, Prod.mk.injEq] at h
      obtain ⟨hidf, hstw⟩ := h
      rw [← hstw, ← hidf]
      refine ⟨?_, hf⟩
      simp [setMap, hH]

/-- Helper (C2, part two): two consecutive successful `CreateTask` calls
with the same non-empty content hash return the same id, whatever their
idempotency keys. -/
theorem createTask_hash_dedup (p₁ p₂ : CreateTaskParams) (st st₁ st₂ : Store)
    (f₁ f₂ : String) (n₁ n₂ : Nanos) (id₁ id₂ : String)
    (hinv : StoreInv st) (hH : p₁.fileHashSHA ≠ "")
    (hh : p₂.fileHashSHA = p₁.fileHashSHA)
    (hf : f₁ ≠ "") (hfree : st.tasks f₁ = none)
    (h1 : createTask f₁ n₁ p₁ st = .ok (id₁, st₁))
    (h2 : createTask f₂ n₂ p₂ st₁ = .ok (id₂, st₂)) :
    id₂ = id₁ := by
  obtain ⟨hidx1, hid1ne⟩ :=
    createTask_hashIdx_after p₁ st st₁ f₁ n₁ id₁ hinv hH hf h1
  have hinv1 : StoreInv st₁ :=
    createTask_preserves_inv p₁ st st₁ f₁ n₁ id₁ hinv hf hfree h1
  have hH₂ : p₂.fileHashSHA ≠ "" := by rw [hh]; exact hH
  unfold createTask at h2
  split at h2
  · cases h2
  · rename_i id0 stx heq
    simp only [Except.ok.injEq, Prod.mk.injEq] at h2
    obtain ⟨hid0, -⟩ := h2
    rw [hid0] at heq
    obtain ⟨-, -, -, t₂, ht₂, hth₂, -⟩ := idempResolve_some p₂ st₁ id₂ stx heq
    have hx := hinv1.2 id₂ t₂ ht₂ (by rw [hth₂]; exact hH₂)
    rw [hth₂, hh, hidx1] at hx
    exact (Option.some.inj hx).symm
  · rename_i st1' heq
    obtain ⟨-, hhx, -, -⟩ := idempResolve_none p₂ st₁ st1' heq
    split at h2
    · rename_i hid0 heq2
      simp only [Except.ok.injEq, Prod.mk.injEq] at h2
      obtain ⟨hid0e, -⟩ := h2
      rw [hid0e] at heq2
      obtain ⟨-, hidx2, -⟩ := hashResolve_some_char p₂ st1' id₂ heq2
      rw [hhx, hh, hidx1] at hidx2
      exact (Option.some.inj hidx2).symm
    · rename_i heq2
      exfalso
      rcases hashResolve_none_char p₂ st1' hH₂ heq2 with h0 | h0 <;>
        rw [hhx, hh, hidx1] at h0
      · cases h0
      · exact hid1ne (Option.some.inj h0)

/-- Helper: the empty keyspace satisfies the hash-index invariant. -/
theorem emptyStore_inv : StoreInv emptyStore := by
  constructor
  · intro h id hx
    cases hx
  · intro id t ht hne
    cases ht

/-- C2: `CreateTask` is stable under replay — a second call carrying the
same (non-empty) idempotency key and an identical payload (equal file
hash and file size) returns the id minted by the first call and leaves
the keyspace unchanged (no new record); and under the hash-index
invariant, any two successful `CreateTask` calls with the same non-empty
file hash return the same task id, whether or not idempotency keys are
supplied. Fresh uuids are assumed non-empty and unused, as
`uuid.NewString` guarantees. -/
theorem createTask_replay_stable :
    (∀ (p₁ p₂ : CreateTaskParams) (st st' : Store) (f₁ f₂ : String)
      (n₁ n₂ : Nanos) (id : String),
      p₁.idempotencyKey ≠ "" → f₁ ≠ "" →
      p₂.idempotencyKey = p₁.idempotencyKey →
      p₂.fileHashSHA = p₁.fileHashSHA → p₂.fileSize = p₁.fileSize →
      createTask f₁ n₁ p₁ st = .ok (id, st') →
      createTask f₂ n₂ p₂ st' = .ok (id, st')) ∧
    (∀ (p₁ p₂ : CreateTaskParams) (st st₁ st₂ : Store) (f₁ f₂ : String)
      (n₁ n₂ : Nanos) (id₁ id₂ : String),
      StoreInv st → p₁.fileHashSHA ≠ "" →
      p₂.fileHashSHA = p₁.fileHashSHA →
      f₁ ≠ "" → st.tasks f₁ = none →
      createTask f₁ n₁ p₁ st = .ok (id₁, st₁) →
      createTask f₂ n₂ p₂ st₁ = .ok (id₂, st₂) →
      id₂ = id₁) :=
  ⟨createTask_replay, createTask_hash_dedup⟩

/-- Witness for C2: a keyed replay against the concrete one-task store
returns the same id `u1` with the store unchanged, and a keyless
same-hash second call returns the first call's id `v1`. -/
theorem createTask_replay_stable_witness :
    createTask "u2" 7 pC2a stC2a = .ok ("u1", stC2a) ∧
    createTask "v2" 3 pC2b stC2b = .ok ("v1", stC2b) ∧
    ("v1" : String) = "v1" :=
  ⟨createTask_replay_stable.1 pC2a pC2a emptyStore stC2a "u1" "u2" 0 7 "u1"
      (by decide) (by decide) rfl rfl rfl rfl,
   rfl,
   createTask_replay_stable.2 pC2b pC2b emptyStore stC2b stC2b "v1" "v2" 0 3
      "v1" "v1" emptyStore_inv (by decide) rfl (by decide) rfl rfl rfl⟩

end DwgToPdf
